import Mathlib

/-!
Shallow embedding of the overload-protection sketches from the article
"Building Resilient Connection Handling with Load Shedding and Backpressure":
the circuit breaker (sliding failure window plus a three-state machine) and
the dynamically sized backpressure buffer.  The Go code is modelled
sequentially: atomics and mutex-guarded updates become pure state
transitions; the monotonic clock becomes an explicit integer parameter (so
that time.Since(t) is now - t, and time.Now() inside a call is the call's
now); an operation that blocks forever in a sequential run (a send on a
full channel with no consumer to drain it) is modelled as Option.none.
Go int and int32 fields are modelled as Int (no claim here depends on
32-bit wrap-around), and float64 threshold fractions are modelled as Rat.
-/

/-- Circuit breaker states.  The Go source declares CircuitState as an int32
with iota constants StateClosed = 0, StateOpen = 1, StateHalfOpen = 2; since
the program only ever stores these three constants in the field, the type is
modelled as an enumeration (the dead default branch of Allow for other int32
values disappears). -/
inductive CircuitState where
  | StateClosed
  | StateOpen
  | StateHalfOpen
  deriving DecidableEq

open CircuitState

/-- Sliding window of time-bucketed failure counters (source struct
slidingWindow).  The Go struct caches size = len(buckets); here the length
of the bucket list is the size.  idx is the current bucket index. -/
structure slidingWindow where
  buckets : List Int
  idx : Nat
  deriving DecidableEq

/-- Source slidingWindow.Tick: advance idx to the next bucket modulo the
window size and zero that bucket before it becomes current. -/
def slidingWindow.Tick (w : slidingWindow) : slidingWindow :=
  let j := (w.idx + 1) % w.buckets.length
  { buckets := w.buckets.set j 0, idx := j }

/-- Iterated Tick: w.Ticks k is the window after k consecutive Tick calls
with no intervening increments. -/
def slidingWindow.Ticks (w : slidingWindow) : Nat → slidingWindow
  | 0 => w
  | k + 1 => (w.Ticks k).Tick

/-- Modelled from the spec: the body of slidingWindow.Inc is missing from
the source (only its call site in CircuitBreaker.Report is present); the
spec says that on each Report(false) the breaker increments the current
window bucket. -/
def slidingWindow.Inc (w : slidingWindow) : slidingWindow :=
  { w with buckets := w.buckets.set w.idx (w.buckets.getD w.idx 0 + 1) }

/-- Modelled from the spec: the body of slidingWindow.Sum is missing from
the source; the spec says Sum() returns the total count across all
buckets. -/
def slidingWindow.Sum (w : slidingWindow) : Int :=
  w.buckets.sum

/-- Modelled from the spec: newWindow (called by NewCircuitBreaker with
n = 60) is missing from the source; it creates n zeroed buckets with the
invariant that exactly one bucket (index 0) is current. -/
def newWindow (n : Nat) : slidingWindow :=
  { buckets := List.replicate n 0, idx := 0 }

/-- Source struct CircuitBreaker.  Durations and timestamps are integers
(nanoseconds); interval is the tick interval used only by the background
ticking goroutine, which is modelled by explicit Tick calls. -/
structure CircuitBreaker where
  failures : slidingWindow
  errorThresh : Int
  successThresh : Int
  interval : Int
  resetTimeout : Int
  halfOpenMaxConcurrent : Int
  state : CircuitState
  lastOpen : Int
  successes : Int
  inFlightTrials : Int
  deriving DecidableEq

/-- Source NewCircuitBreaker: the unset Go fields take their zero values
(state = StateClosed = 0, lastOpen = the zero time, counters 0); the
background ticker goroutine is modelled by explicit Tick calls on the
window. -/
def NewCircuitBreaker (errThresh succThresh interval reset halfOpenMax : Int) :
    CircuitBreaker :=
  { failures := newWindow 60
    errorThresh := errThresh
    successThresh := succThresh
    interval := interval
    resetTimeout := reset
    halfOpenMaxConcurrent := halfOpenMax
    state := StateClosed
    lastOpen := 0
    successes := 0
    inFlightTrials := 0 }

/-- Source CircuitBreaker.Allow with the clock passed explicitly:
time.Since(cb.lastOpen) >= cb.resetTimeout is now - cb.lastOpen >=
cb.resetTimeout.  Returns the updated breaker together with the Bool
result. -/
def CircuitBreaker.Allow (cb : CircuitBreaker) (now : Int) : CircuitBreaker × Bool :=
  match cb.state with
  | StateClosed => (cb, true)
  | StateOpen =>
      if cb.resetTimeout ≤ now - cb.lastOpen then
        ({ cb with state := StateHalfOpen, successes := 0, inFlightTrials := 0 }, true)
      else
        (cb, false)
  | StateHalfOpen =>
      if cb.halfOpenMaxConcurrent ≤ cb.inFlightTrials then
        (cb, false)
      else
        ({ cb with inFlightTrials := cb.inFlightTrials + 1 }, true)

/-- Source CircuitBreaker.Report: the early return goes through the internal
Allow() call (which may itself change the state and counters), the switch
has cases only for StateClosed and StateHalfOpen, and the deferred decrement
of inFlightTrials fires only when the state at function exit is still
StateHalfOpen. -/
def CircuitBreaker.Report (cb : CircuitBreaker) (success : Bool) (now : Int) :
    CircuitBreaker :=
  let a := cb.Allow now
  if a.2 then
    let cb1 := a.1
    let cb2 :=
      match cb1.state with
      | StateClosed =>
          if success then cb1
          else
            let f := cb1.failures.Inc
            if cb1.errorThresh ≤ f.Sum then
              { cb1 with failures := f, state := StateOpen, lastOpen := now }
            else
              { cb1 with failures := f }
      | StateHalfOpen =>
          if success then
            if cb1.successThresh ≤ cb1.successes + 1 then
              { cb1 with successes := cb1.successes + 1, state := StateClosed }
            else
              { cb1 with successes := cb1.successes + 1 }
          else
            { cb1 with state := StateOpen, lastOpen := now }
      | StateOpen => cb1
    if cb2.state = StateHalfOpen then
      { cb2 with inFlightTrials := cb2.inFlightTrials - 1 }
    else
      cb2
  else
    a.1

/-- Iterated Report(false) at a fixed instant now: reportFalses cb k now is
the breaker after k consecutive Report(false) calls with no intervening
ticks. -/
def CircuitBreaker.reportFalses (cb : CircuitBreaker) : Nat → Int → CircuitBreaker
  | 0, _ => cb
  | k + 1, now => ((cb.reportFalses k now).Report false now)

/-- Source struct DynamicBuffer.  The underlying buffered channel is
modelled as the list of queued items (front of the list = next to be
received) together with its capacity; work items are opaque, so the type is
parametric in them.  The float64 usage fractions growPct and shrinkPct are
modelled as rationals. -/
structure DynamicBuffer (α : Type) where
  queue : List α
  capacity : Nat
  minSize : Nat
  maxSize : Nat
  growPct : Rat
  shrinkPct : Rat
  deriving DecidableEq

/-- Source NewDynamicBuffer: make(chan Request, initial) is an empty queue
of capacity initial; no validation of the arguments is performed.  The
background monitor goroutine is modelled by explicit monitor steps. -/
def NewDynamicBuffer (α : Type) (initial min max : Nat) (growPct shrinkPct : Rat) :
    DynamicBuffer α :=
  { queue := []
    capacity := initial
    minSize := min
    maxSize := max
    growPct := growPct
    shrinkPct := shrinkPct }

/-- Source DynamicBuffer.Enqueue: ch <- req on the current channel.  The
send completes (appending the item) exactly when the channel has free
space; on a full channel the call blocks until a consumer makes room,
which in this sequential model is Option.none.  The method takes no
context and returns no error. -/
def DynamicBuffer.Enqueue {α : Type} (db : DynamicBuffer α) (req : α) :
    Option (DynamicBuffer α) :=
  if db.queue.length < db.capacity then
    some { db with queue := db.queue ++ [req] }
  else
    none

/-- Source drain loop inside DynamicBuffer.monitor:
for len(oldCh) > 0 { newCh <- <-oldCh }.  Items move one at a time from the
old channel to the new channel in FIFO order; a send on a full new channel
blocks forever under the held mutex (Option.none). -/
def drainLoop {α : Type} : List α → List α → Nat → Option (List α)
  | [], acc, _ => some acc
  | r :: rest, acc, c =>
      if acc.length < c then drainLoop rest (acc ++ [r]) c else none

/-- Source DynamicBuffer.monitor, one tick of the resize loop: compute
usage = len/cap, pick newSize by the grow/shrink rules (0 meaning no
resize), and if a resize was chosen, drain the old channel into a fresh
channel of the new capacity.  Division of the Go float64 lengths is
modelled as exact rational division (0/0 in Go is NaN, which fails both
threshold comparisons; in Rat 0/0 = 0, and with length <= cap both guards
still fail then, since cap = 0 forbids both cap < maxSize weirdness and
cap > minSize). -/
def DynamicBuffer.monitor {α : Type} (db : DynamicBuffer α) :
    Option (DynamicBuffer α) :=
  let c := db.capacity
  let len := db.queue.length
  let usage : Rat := (len : Rat) / (c : Rat)
  let newSize : Nat :=
    if db.growPct < usage ∧ c < db.maxSize then
      min db.maxSize (c * 2)
    else if usage < db.shrinkPct ∧ db.minSize < c then
      max db.minSize (c / 2)
    else
      0
  if newSize ≠ 0 then
    (drainLoop db.queue [] newSize).map
      (fun q => { db with queue := q, capacity := newSize })
  else
    some db

/-- Source DynamicBuffer.Dequeue, restricted to the receiving branch of its
select: a receive on the channel pops the oldest item; on an empty channel
the receive blocks (Option.none).  The ctx.Done() branch of the select
returns ok = false with the buffer unchanged, so it needs no state
transition of its own. -/
def DynamicBuffer.Dequeue {α : Type} (db : DynamicBuffer α) :
    Option (α × DynamicBuffer α) :=
  match db.queue with
  | [] => none
  | r :: rest => some (r, { db with queue := rest })

/-- One step of the DynamicBuffer system: a completed Enqueue by a producer,
a completed Dequeue by a consumer, or one completed iteration of the
background resize monitor. -/
inductive DBStep {α : Type} : DynamicBuffer α → DynamicBuffer α → Prop
  | enq (db db' : DynamicBuffer α) (r : α) :
      db.Enqueue r = some db' → DBStep db db'
  | deq (db db' : DynamicBuffer α) (r : α) :
      db.Dequeue = some (r, db') → DBStep db db'
  | mon (db db' : DynamicBuffer α) :
      db.monitor = some db' → DBStep db db'

/-- Concrete HalfOpen breaker for evaluating Report on explicit inputs:
window [3, 0, 0] with bucket 0 current, errorThresh 2, successThresh s,
concurrency limit 3, resetTimeout 10, lastOpen 0, successes 0,
inFlightTrials k. -/
def halfOpenExample (s k : Int) : CircuitBreaker :=
  { failures := { buckets := [3, 0, 0], idx := 0 }
    errorThresh := 2
    successThresh := s
    interval := 1
    resetTimeout := 10
    halfOpenMaxConcurrent := 3
    state := StateHalfOpen
    lastOpen := 0
    successes := 4
    inFlightTrials := k }

/-- Concrete Open breaker for evaluating Report on explicit inputs: window
[3, 0, 0] with bucket 0 current, errorThresh 2, successThresh s,
concurrency limit 3, resetTimeout 10, lastOpen 0. -/
def openExample (s : Int) : CircuitBreaker :=
  { failures := { buckets := [3, 0, 0], idx := 0 }
    errorThresh := 2
    successThresh := s
    interval := 1
    resetTimeout := 10
    halfOpenMaxConcurrent := 3
    state := StateOpen
    lastOpen := 0
    successes := 4
    inFlightTrials := 2 }

/-- Concrete buffer for evaluating the resize monitor on explicit inputs:
4 queued items at capacity 4 (usage 1.0), bounds 2..16, grow above 0.8,
shrink below 0.2. -/
def dbGrowExample : DynamicBuffer Nat :=
  { queue := [1, 2, 3, 4]
    capacity := 4
    minSize := 2
    maxSize := 16
    growPct := 8/10
    shrinkPct := 2/10 }

/-! ## Helper lemmas about list buckets -/

theorem list_sum_set (l : List Int) (i : Nat) (v : Int) (hi : i < l.length) :
    (l.set i v).sum = l.sum - l.getD i 0 + v := by
  induction l generalizing i with
  | nil => simp at hi
  | cons a tl ih =>
      cases i with
      | zero => simp [List.set, List.getD]; ring
      | succ i =>
          simp only [List.set, List.sum_cons, List.getD_cons_succ]
          rw [ih i (by simpa using hi)]
          ring

theorem list_set_getD_self (l : List Int) (i : Nat) (hi : i < l.length) :
    l.set i (l.getD i 0) = l := by
  induction l generalizing i with
  | nil => simp at hi
  | cons a tl ih =>
      cases i with
      | zero => rfl
      | succ i =>
          show a :: tl.set i (tl.getD i 0) = a :: tl
          rw [ih i (by simpa using hi)]

theorem list_getD_set (l : List Int) (i j : Nat) (v : Int) :
    (l.set i v).getD j 0 = if i = j ∧ j < l.length then v else l.getD j 0 := by
  rw [List.getD_eq_getElem?_getD, List.getD_eq_getElem?_getD, List.getElem?_set]
  by_cases hij : i = j
  · subst hij
    by_cases hlen : i < l.length
    · simp [hlen]
    · simp [hlen, List.getElem?_eq_none (by omega : l.length ≤ i)]
  · simp [hij]

/-! ## Helper lemmas about the sliding window -/

theorem Tick_length (w : slidingWindow) :
    w.Tick.buckets.length = w.buckets.length := by
  simp [slidingWindow.Tick]

theorem Ticks_length (w : slidingWindow) (k : Nat) :
    (w.Ticks k).buckets.length = w.buckets.length := by
  induction k with
  | zero => rfl
  | succ k ih => rw [slidingWindow.Ticks, Tick_length, ih]

theorem Tick_idx (w : slidingWindow) :
    w.Tick.idx = (w.idx + 1) % w.buckets.length := rfl

theorem Ticks_idx (w : slidingWindow) (k : Nat) :
    (w.Ticks (k + 1)).idx = (w.idx + k + 1) % w.buckets.length := by
  induction k with
  | zero => rfl
  | succ k ih =>
      show ((w.Ticks (k + 1)).Tick).idx = _
      rw [Tick_idx, Ticks_length, ih, Nat.mod_add_mod]
      ring_nf

theorem Tick_getD_zero (w : slidingWindow) (j : Nat)
    (hj : w.buckets.getD j 0 = 0) : w.Tick.buckets.getD j 0 = 0 := by
  show ((w.buckets.set ((w.idx + 1) % w.buckets.length) 0).getD j 0) = 0
  rw [list_getD_set]
  split
  · rfl
  · exact hj

theorem Tick_getD_written (w : slidingWindow) (hn : 0 < w.buckets.length) :
    w.Tick.buckets.getD ((w.idx + 1) % w.buckets.length) 0 = 0 := by
  show ((w.buckets.set ((w.idx + 1) % w.buckets.length) 0).getD _ 0) = 0
  rw [list_getD_set]
  simp [Nat.mod_lt _ hn]

theorem Ticks_written_zero (w : slidingWindow) (k m : Nat)
    (hn : 0 < w.buckets.length) (hm : m < k) :
    (w.Ticks k).buckets.getD ((w.idx + m + 1) % w.buckets.length) 0 = 0 := by
  induction k with
  | zero => omega
  | succ k ih =>
      by_cases hmk : m = k
      · subst hmk
        show ((w.Ticks m).Tick).buckets.getD _ 0 = 0
        cases m with
        | zero =>
            have := Tick_getD_written w hn
            simpa [slidingWindow.Ticks] using this
        | succ m =>
            have hw := Tick_getD_written (w.Ticks (m + 1))
              (by rw [Ticks_length]; exact hn)
            rw [Ticks_idx, Ticks_length, Nat.mod_add_mod] at hw
            exact hw
      · have hmlt : m < k := by omega
        show ((w.Ticks k).Tick).buckets.getD _ 0 = 0
        exact Tick_getD_zero _ _ (ih hmlt)

theorem exists_tick_offset (n i j : Nat) (hn : 0 < n) (hj : j < n) :
    ∃ m, m < n ∧ (i + m + 1) % n = j := by
  refine ⟨(j + n - (i + 1) % n) % n, Nat.mod_lt _ hn, ?_⟩
  have ha : (i + 1) % n < n := Nat.mod_lt _ hn
  calc (i + (j + n - (i + 1) % n) % n + 1) % n
      = (i + 1 + (j + n - (i + 1) % n) % n) % n := by ring_nf
    _ = ((i + 1) % n + (j + n - (i + 1) % n) % n) % n := by rw [Nat.mod_add_mod]
    _ = ((i + 1) % n + (j + n - (i + 1) % n)) % n := by rw [Nat.add_mod_mod]
    _ = (j + n) % n := by
          congr 1
          omega
    _ = j % n := Nat.add_mod_right j n
    _ = j := Nat.mod_eq_of_lt hj

theorem list_sum_zero_of_getD (l : List Int)
    (h : ∀ j, j < l.length → l.getD j 0 = 0) : l.sum = 0 := by
  apply List.sum_eq_zero
  intro x hx
  obtain ⟨j, hj, hget⟩ := List.mem_iff_getElem.mp hx
  have := h j hj
  rw [List.getD_eq_getElem?_getD, List.getElem?_eq_getElem hj] at this
  simpa [hget] using this

/-- C6: for every sliding window of N buckets and every starting bucket
contents, after N consecutive Tick() calls with no intervening increments,
Sum() returns 0; hence a failure recorded more than N ticks ago never
contributes to the failureThreshold comparison, even with zero subsequent
traffic. -/
theorem C6_window_ages_out (w : slidingWindow) (n : Nat)
    (hn : 0 < n) (hlen : w.buckets.length = n) :
    (w.Ticks n).Sum = 0 := by
  subst hlen
  apply list_sum_zero_of_getD
  intro j hj
  rw [Ticks_length] at hj
  obtain ⟨m, hm, hpos⟩ := exists_tick_offset w.buckets.length w.idx j hn hj
  rw [← hpos]
  exact Ticks_written_zero w w.buckets.length m hn hm

/-- Witness for C6 at a concrete window: 3 buckets holding 5, 7, 9 with
bucket 1 current are all zeroed by 3 ticks. -/
theorem C6_window_ages_out_witness :
    (slidingWindow.Ticks { buckets := [5, 7, 9], idx := 1 } 3).Sum = 0 :=
  C6_window_ages_out { buckets := [5, 7, 9], idx := 1 } 3 (by decide) (by decide)

/-! ## Step lemmas for Allow and Report, one per source branch -/

theorem allow_closed (cb : CircuitBreaker) (now : Int) (h : cb.state = StateClosed) :
    cb.Allow now = (cb, true) := by
  unfold CircuitBreaker.Allow
  rw [h]

theorem allow_halfOpen (cb : CircuitBreaker) (now : Int) (h : cb.state = StateHalfOpen) :
    cb.Allow now =
      if cb.halfOpenMaxConcurrent ≤ cb.inFlightTrials then (cb, false)
      else ({ cb with inFlightTrials := cb.inFlightTrials + 1 }, true) := by
  unfold CircuitBreaker.Allow
  rw [h]

theorem report_halfOpen_full (cb : CircuitBreaker) (s : Bool) (now : Int)
    (h : cb.state = StateHalfOpen)
    (hfull : cb.halfOpenMaxConcurrent ≤ cb.inFlightTrials) :
    cb.Report s now = cb := by
  unfold CircuitBreaker.Report
  rw [allow_halfOpen cb now h, if_pos hfull]
  rfl

theorem report_halfOpen_true_close (cb : CircuitBreaker) (now : Int)
    (h : cb.state = StateHalfOpen)
    (hlt : cb.inFlightTrials < cb.halfOpenMaxConcurrent)
    (hs : cb.successThresh ≤ cb.successes + 1) :
    cb.Report true now =
      { cb with inFlightTrials := cb.inFlightTrials + 1,
                successes := cb.successes + 1, state := StateClosed } := by
  unfold CircuitBreaker.Report
  rw [allow_halfOpen cb now h, if_neg (not_le.mpr hlt)]
  simp [h, hs]

theorem report_halfOpen_true_stay (cb : CircuitBreaker) (now : Int)
    (h : cb.state = StateHalfOpen)
    (hlt : cb.inFlightTrials < cb.halfOpenMaxConcurrent)
    (hs : cb.successes + 1 < cb.successThresh) :
    cb.Report true now = { cb with successes := cb.successes + 1 } := by
  unfold CircuitBreaker.Report
  rw [allow_halfOpen cb now h, if_neg (not_le.mpr hlt)]
  simp [h, not_le.mpr hs]

theorem report_halfOpen_false (cb : CircuitBreaker) (now : Int)
    (h : cb.state = StateHalfOpen)
    (hlt : cb.inFlightTrials < cb.halfOpenMaxConcurrent) :
    cb.Report false now =
      { cb with inFlightTrials := cb.inFlightTrials + 1,
                state := StateOpen, lastOpen := now } := by
  unfold CircuitBreaker.Report
  rw [allow_halfOpen cb now h, if_neg (not_le.mpr hlt)]
  simp [h]

theorem allow_open_elapsed (cb : CircuitBreaker) (now : Int)
    (h : cb.state = StateOpen) (he : cb.resetTimeout ≤ now - cb.lastOpen) :
    cb.Allow now =
      ({ cb with state := StateHalfOpen, successes := 0, inFlightTrials := 0 }, true) := by
  unfold CircuitBreaker.Allow
  rw [h]
  simp [he]

theorem allow_open_wait (cb : CircuitBreaker) (now : Int)
    (h : cb.state = StateOpen) (hne : now - cb.lastOpen < cb.resetTimeout) :
    cb.Allow now = (cb, false) := by
  unfold CircuitBreaker.Allow
  rw [h]
  simp [not_le.mpr hne]

theorem report_closed_true (cb : CircuitBreaker) (now : Int)
    (h : cb.state = StateClosed) :
    cb.Report true now = cb := by
  unfold CircuitBreaker.Report
  rw [allow_closed cb now h]
  simp [h]

theorem report_closed_false_open (cb : CircuitBreaker) (now : Int)
    (h : cb.state = StateClosed)
    (ht : cb.errorThresh ≤ cb.failures.Inc.Sum) :
    cb.Report false now =
      { cb with failures := cb.failures.Inc, state := StateOpen, lastOpen := now } := by
  unfold CircuitBreaker.Report
  rw [allow_closed cb now h]
  simp [h, ht]

theorem report_closed_false_stay (cb : CircuitBreaker) (now : Int)
    (h : cb.state = StateClosed)
    (ht : cb.failures.Inc.Sum < cb.errorThresh) :
    cb.Report false now = { cb with failures := cb.failures.Inc } := by
  unfold CircuitBreaker.Report
  rw [allow_closed cb now h]
  simp [h, not_le.mpr ht]

theorem report_open_wait (cb : CircuitBreaker) (s : Bool) (now : Int)
    (h : cb.state = StateOpen) (hne : now - cb.lastOpen < cb.resetTimeout) :
    cb.Report s now = cb := by
  unfold CircuitBreaker.Report
  rw [allow_open_wait cb now h hne]
  rfl

theorem report_open_elapsed_false (cb : CircuitBreaker) (now : Int)
    (h : cb.state = StateOpen) (he : cb.resetTimeout ≤ now - cb.lastOpen) :
    cb.Report false now =
      { cb with state := StateOpen, lastOpen := now, successes := 0,
                inFlightTrials := 0 } := by
  unfold CircuitBreaker.Report
  rw [allow_open_elapsed cb now h he]
  simp

theorem report_open_elapsed_true_close (cb : CircuitBreaker) (now : Int)
    (h : cb.state = StateOpen) (he : cb.resetTimeout ≤ now - cb.lastOpen)
    (hs : cb.successThresh ≤ 1) :
    cb.Report true now =
      { cb with state := StateClosed, successes := 1, inFlightTrials := 0 } := by
  unfold CircuitBreaker.Report
  rw [allow_open_elapsed cb now h he]
  simp [hs]

theorem report_open_elapsed_true_stay (cb : CircuitBreaker) (now : Int)
    (h : cb.state = StateOpen) (he : cb.resetTimeout ≤ now - cb.lastOpen)
    (hs : 1 < cb.successThresh) :
    cb.Report true now =
      { cb with state := StateHalfOpen, successes := 1, inFlightTrials := -1 } := by
  unfold CircuitBreaker.Report
  rw [allow_open_elapsed cb now h he]
  simp [not_le.mpr hs]

/-! ## Lemmas for iterated Report(false) in the Closed state -/

theorem list_getD_set_self (l : List Int) (i : Nat) (v : Int) (hi : i < l.length) :
    (l.set i v).getD i 0 = v := by
  rw [list_getD_set]
  simp [hi]

theorem inc_sum (w : slidingWindow) (hidx : w.idx < w.buckets.length) :
    w.Inc.Sum = w.Sum + 1 := by
  show (w.buckets.set w.idx (w.buckets.getD w.idx 0 + 1)).sum = w.buckets.sum + 1
  rw [list_sum_set _ _ _ hidx]
  ring

theorem reportFalses_closed (cb : CircuitBreaker) (now : Int) (k : Nat)
    (hstate : cb.state = StateClosed)
    (hidx : cb.failures.idx < cb.failures.buckets.length)
    (hlt : cb.failures.Sum + k < cb.errorThresh) :
    cb.reportFalses k now =
      { cb with failures :=
          { buckets := cb.failures.buckets.set cb.failures.idx
              (cb.failures.buckets.getD cb.failures.idx 0 + k),
            idx := cb.failures.idx } } := by
  induction k with
  | zero =>
      show cb = _
      have h0 : cb.failures.buckets.getD cb.failures.idx 0 + ((0 : Nat) : Int)
          = cb.failures.buckets.getD cb.failures.idx 0 := by
        push_cast
        ring
      rw [h0, list_set_getD_self _ _ hidx]
  | succ k ih =>
      have hk : cb.failures.Sum + (k : Int) < cb.errorThresh := by
        push_cast at hlt ⊢
        omega
      show (cb.reportFalses k now).Report false now = _
      rw [ih hk]
      have hstate2 :
          ({ cb with failures :=
              { buckets := cb.failures.buckets.set cb.failures.idx
                  (cb.failures.buckets.getD cb.failures.idx 0 + k),
                idx := cb.failures.idx } } : CircuitBreaker).state = StateClosed := hstate
      have hsum2 :
          ({ cb with failures :=
              { buckets := cb.failures.buckets.set cb.failures.idx
                  (cb.failures.buckets.getD cb.failures.idx 0 + k),
                idx := cb.failures.idx } } : CircuitBreaker).failures.Inc.Sum
            < cb.errorThresh := by
        rw [inc_sum _ (by simpa using hidx)]
        show (cb.failures.buckets.set cb.failures.idx
            (cb.failures.buckets.getD cb.failures.idx 0 + k)).sum + 1 < cb.errorThresh
        rw [list_sum_set _ _ _ hidx]
        have hS : cb.failures.Sum = cb.failures.buckets.sum := rfl
        push_cast at hlt
        omega
      rw [report_closed_false_stay _ now hstate2 hsum2]
      congr 1
      show slidingWindow.Inc _ = _
      unfold slidingWindow.Inc
      congr 1
      show (cb.failures.buckets.set cb.failures.idx _).set cb.failures.idx _ = _
      rw [list_getD_set_self _ _ _ hidx, List.set_set]
      congr 1
      push_cast
      ring

theorem reportFalses_open (cb : CircuitBreaker) (now : Int) (k : Nat)
    (hstate : cb.state = StateClosed)
    (hidx : cb.failures.idx < cb.failures.buckets.length)
    (hrt : 0 < cb.resetTimeout)
    (hlow : cb.failures.Sum < cb.errorThresh)
    (hhit : cb.errorThresh ≤ cb.failures.Sum + k) :
    cb.reportFalses k now =
      { cb with
        state := StateOpen
        lastOpen := now
        failures :=
          { buckets := cb.failures.buckets.set cb.failures.idx
              (cb.failures.buckets.getD cb.failures.idx 0
                + (cb.errorThresh - cb.failures.Sum)),
            idx := cb.failures.idx } } := by
  induction k with
  | zero =>
      exfalso
      push_cast at hhit
      omega
  | succ k ih =>
      by_cases hcase : cb.errorThresh ≤ cb.failures.Sum + k
      · show (cb.reportFalses k now).Report false now = _
        rw [ih hcase]
        apply report_open_wait
        · rfl
        · show now - now < cb.resetTimeout
          omega
      · have hklt : cb.failures.Sum + (k : Int) < cb.errorThresh := not_le.mp hcase
        have hteq : cb.errorThresh = cb.failures.Sum + k + 1 := by
          push_cast at hhit
          omega
        show (cb.reportFalses k now).Report false now = _
        rw [reportFalses_closed cb now k hstate hidx hklt]
        have hstate2 :
            ({ cb with failures :=
                { buckets := cb.failures.buckets.set cb.failures.idx
                    (cb.failures.buckets.getD cb.failures.idx 0 + k),
                  idx := cb.failures.idx } } : CircuitBreaker).state = StateClosed := hstate
        have hsum2 :
            ({ cb with failures :=
                { buckets := cb.failures.buckets.set cb.failures.idx
                    (cb.failures.buckets.getD cb.failures.idx 0 + k),
                  idx := cb.failures.idx } } : CircuitBreaker).errorThresh ≤
              ({ cb with failures :=
                { buckets := cb.failures.buckets.set cb.failures.idx
                    (cb.failures.buckets.getD cb.failures.idx 0 + k),
                  idx := cb.failures.idx } } : CircuitBreaker).failures.Inc.Sum := by
          rw [inc_sum _ (by simpa using hidx)]
          show cb.errorThresh ≤ (cb.failures.buckets.set cb.failures.idx
              (cb.failures.buckets.getD cb.failures.idx 0 + k)).sum + 1
          rw [list_sum_set _ _ _ hidx]
          have hS : cb.failures.Sum = cb.failures.buckets.sum := rfl
          omega
        rw [report_closed_false_open _ now hstate2 hsum2]
        congr 1
        show slidingWindow.Inc _ = _
        unfold slidingWindow.Inc
        congr 1
        show (cb.failures.buckets.set cb.failures.idx _).set cb.failures.idx _ = _
        rw [list_getD_set_self _ _ _ hidx, List.set_set]
        congr 1
        rw [hteq]
        ring

/-- C4: starting from a Closed state whose window sum is below the
threshold, for every sequence of k Report(false) calls with no intervening
ticks, each call increments the current window bucket, and the breaker is
still Closed (with lastOpenedAt untouched) as long as the trailing-window
failure count stays below failureThreshold, and is Open with
lastOpenedAt = now exactly once the count reaches failureThreshold, at
which point the window sum is frozen at exactly failureThreshold (the
transition happened at the first crossing call, never before). -/
theorem C4_threshold (cb : CircuitBreaker) (now : Int) (k : Nat)
    (hstate : cb.state = StateClosed)
    (hidx : cb.failures.idx < cb.failures.buckets.length)
    (hrt : 0 < cb.resetTimeout)
    (hlow : cb.failures.Sum < cb.errorThresh) :
    (cb.failures.Sum + k < cb.errorThresh →
      (cb.reportFalses k now).state = StateClosed
      ∧ (cb.reportFalses k now).failures.buckets
          = cb.failures.buckets.set cb.failures.idx
              (cb.failures.buckets.getD cb.failures.idx 0 + k)
      ∧ (cb.reportFalses k now).failures.Sum = cb.failures.Sum + k
      ∧ (cb.reportFalses k now).lastOpen = cb.lastOpen)
    ∧ (cb.errorThresh ≤ cb.failures.Sum + k →
      (cb.reportFalses k now).state = StateOpen
      ∧ (cb.reportFalses k now).lastOpen = now
      ∧ (cb.reportFalses k now).failures.Sum = cb.errorThresh) := by
  constructor
  · intro hlt
    rw [reportFalses_closed cb now k hstate hidx hlt]
    refine ⟨hstate, rfl, ?_, rfl⟩
    show (cb.failures.buckets.set cb.failures.idx
        (cb.failures.buckets.getD cb.failures.idx 0 + k)).sum = cb.failures.Sum + k
    rw [list_sum_set _ _ _ hidx]
    have hS : cb.failures.Sum = cb.failures.buckets.sum := rfl
    omega
  · intro hge
    rw [reportFalses_open cb now k hstate hidx hrt hlow hge]
    refine ⟨rfl, rfl, ?_⟩
    show (cb.failures.buckets.set cb.failures.idx
        (cb.failures.buckets.getD cb.failures.idx 0
          + (cb.errorThresh - cb.failures.Sum))).sum = cb.errorThresh
    rw [list_sum_set _ _ _ hidx]
    have hS : cb.failures.Sum = cb.failures.buckets.sum := rfl
    omega


/-! ## Claim theorems about the circuit breaker state machine -/

/-- C5: in the Open state, Allow() returns true if and only if
now - lastOpenedAt >= resetTimeout; when it returns true it has first
transitioned the breaker to HalfOpen with halfOpenSuccesses and
halfOpenInFlight reset to 0, and when it returns false the breaker state,
counters, and window are unchanged. -/
theorem C5_open_allow (cb : CircuitBreaker) (now : Int)
    (h : cb.state = StateOpen) :
    ((cb.Allow now).2 = true ↔ cb.resetTimeout ≤ now - cb.lastOpen)
    ∧ (cb.resetTimeout ≤ now - cb.lastOpen →
        (cb.Allow now).1 =
          { cb with state := StateHalfOpen, successes := 0, inFlightTrials := 0 })
    ∧ (now - cb.lastOpen < cb.resetTimeout → (cb.Allow now).1 = cb) := by
  refine ⟨⟨?_, ?_⟩, ?_, ?_⟩
  · intro htrue
    by_contra hlt
    push_neg at hlt
    rw [allow_open_wait cb now h hlt] at htrue
    simp at htrue
  · intro he
    rw [allow_open_elapsed cb now h he]
  · intro he
    rw [allow_open_elapsed cb now h he]
  · intro hlt
    rw [allow_open_wait cb now h hlt]

/-- Witness for C5: the concrete Open breaker with resetTimeout 10 and
lastOpen 0, probed at now = 10, lets the call through and moves to HalfOpen
with both counters reset. -/
theorem C5_open_allow_witness :
    ((openExample 5).Allow 10).2 = true
    ∧ ((openExample 5).Allow 10).1 =
        { (openExample 5) with
          state := StateHalfOpen, successes := 0, inFlightTrials := 0 } :=
  ⟨(C5_open_allow (openExample 5) 10 (by decide)).1.mpr (by decide),
   (C5_open_allow (openExample 5) 10 (by decide)).2.1 (by decide)⟩

/-- Counterexample for C1: with halfOpenInFlight at the concurrency limit
(3 of 3), Report(false) does not transition to Open (the internal Allow()
returns false, so Report returns without doing anything); and below the
limit Report(false) leaves halfOpenInFlight incremented (1 becomes 2), not
decremented. -/
theorem C1_counterexample :
    ((halfOpenExample 5 3).Report false 7).state = StateHalfOpen
    ∧ ((halfOpenExample 5 1).Report false 7).inFlightTrials = 2 := by
  decide

/-- C1 (amended): in the HalfOpen state with halfOpenInFlight strictly
below the concurrency limit, a single Report(false) transitions the breaker
to Open and records lastOpenedAt = now, but halfOpenInFlight is incremented
by the internal Allow() call and never decremented (the deferred decrement
is skipped because the state is no longer HalfOpen at exit); with
halfOpenInFlight at the concurrency limit, Report(false) is a no-op. -/
theorem C1_report_false_halfOpen (cb : CircuitBreaker) (now : Int)
    (h : cb.state = StateHalfOpen) :
    (cb.inFlightTrials < cb.halfOpenMaxConcurrent →
      cb.Report false now =
        { cb with inFlightTrials := cb.inFlightTrials + 1,
                  state := StateOpen, lastOpen := now })
    ∧ (cb.halfOpenMaxConcurrent ≤ cb.inFlightTrials →
        cb.Report false now = cb) :=
  ⟨fun hlt => report_halfOpen_false cb now h hlt,
   fun hfull => report_halfOpen_full cb false now h hfull⟩

/-- Witness for C1 at a concrete breaker below the limit: Report(false)
opens the breaker, stamps lastOpen = 7, and leaves the in-flight counter
incremented to 2. -/
theorem C1_report_false_halfOpen_witness :
    (halfOpenExample 5 1).Report false 7 =
      { (halfOpenExample 5 1) with
        inFlightTrials := (halfOpenExample 5 1).inFlightTrials + 1,
        state := StateOpen, lastOpen := 7 } :=
  (C1_report_false_halfOpen (halfOpenExample 5 1) 7 (by decide)).1 (by decide)

/-- Counterexample for C2: a HalfOpen breaker whose window still holds the
3 failures that opened it; the closing Report(true) transitions to Closed
but the window sum is still 3, not 0. -/
theorem C2_counterexample :
    ((halfOpenExample 5 0).Report true 7).state = StateClosed
    ∧ ((halfOpenExample 5 0).Report true 7).failures.Sum = 3 := by
  decide

/-- C2 (amended): whenever a Report(true) call in the HalfOpen state (with
halfOpenInFlight below the concurrency limit, so that the internal Allow()
lets it through) makes halfOpenSuccesses reach successThreshold, the
breaker transitions to Closed, but the sliding failure window is not
cleared: it is exactly the window from before the call. -/
theorem C2_close_keeps_window (cb : CircuitBreaker) (now : Int)
    (h : cb.state = StateHalfOpen)
    (hlt : cb.inFlightTrials < cb.halfOpenMaxConcurrent)
    (hs : cb.successThresh ≤ cb.successes + 1) :
    (cb.Report true now).state = StateClosed
    ∧ (cb.Report true now).failures = cb.failures := by
  rw [report_halfOpen_true_close cb now h hlt hs]
  exact ⟨rfl, rfl⟩

/-- Witness for C2 at a concrete breaker: the fifth success closes the
breaker and the window is untouched. -/
theorem C2_close_keeps_window_witness :
    ((halfOpenExample 5 0).Report true 7).state = StateClosed
    ∧ ((halfOpenExample 5 0).Report true 7).failures
        = (halfOpenExample 5 0).failures :=
  C2_close_keeps_window (halfOpenExample 5 0) 7 (by decide) (by decide) (by decide)

/-- Counterexample for C3: a non-crossing Report(true) (successes 4 -> 5,
threshold 9) increments halfOpenSuccesses but leaves halfOpenInFlight at 1,
its value before the call, instead of decrementing it to 0. -/
theorem C3_counterexample :
    ((halfOpenExample 9 1).Report true 7).successes = 5
    ∧ ((halfOpenExample 9 1).Report true 7).inFlightTrials = 1 := by
  decide

/-- C3 (amended): in the HalfOpen state with halfOpenInFlight below the
concurrency limit, every Report(true) call that does not cross
successThreshold increments halfOpenSuccesses by exactly one and leaves
halfOpenInFlight unchanged (the slot taken by the internal Allow() call is
released by the deferred decrement, so the net change is 0, not -1); at
the concurrency limit, Report(true) is a no-op. -/
theorem C3_halfOpen_success_bookkeeping (cb : CircuitBreaker) (now : Int)
    (h : cb.state = StateHalfOpen) :
    (cb.inFlightTrials < cb.halfOpenMaxConcurrent →
      cb.successes + 1 < cb.successThresh →
      cb.Report true now = { cb with successes := cb.successes + 1 })
    ∧ (cb.halfOpenMaxConcurrent ≤ cb.inFlightTrials →
        cb.Report true now = cb) :=
  ⟨fun hlt hs => report_halfOpen_true_stay cb now h hlt hs,
   fun hfull => report_halfOpen_full cb true now h hfull⟩

/-- Witness for C3 at a concrete breaker: a non-crossing success bumps only
the success counter. -/
theorem C3_halfOpen_success_bookkeeping_witness :
    (halfOpenExample 9 1).Report true 7 =
      { (halfOpenExample 9 1) with
        successes := (halfOpenExample 9 1).successes + 1 } :=
  (C3_halfOpen_success_bookkeeping (halfOpenExample 9 1) 7 (by decide)).1
    (by decide) (by decide)

/-- Counterexample for C10: Report(true) on an Open breaker with the reset
timeout elapsed (now = 10, lastOpen = 0, resetTimeout = 10) ends in
HalfOpen with successes = 1 and inFlightTrials = -1: the internal Allow()
reset the counter to 0 without consuming a trial slot, and the deferred
decrement then pushed it below zero. -/
theorem C10_counterexample :
    ((openExample 5).Report true 10).state = StateHalfOpen
    ∧ ((openExample 5).Report true 10).successes = 1
    ∧ ((openExample 5).Report true 10).inFlightTrials = -1 := by
  decide

/-- C10 (amended): if Report(success) is called while the breaker is Open
and now - lastOpenedAt >= resetTimeout, the internal Allow() transitions
the breaker to HalfOpen with both counters reset to 0 without consuming a
trial slot, and the outcome is then processed as a HalfOpen trial result:
a failure re-opens with lastOpenedAt = now; a success either closes (when
successThreshold <= 1) leaving inFlightTrials = 0, or stays HalfOpen with
successes = 1 and inFlightTrials = -1 because of the deferred decrement.
If the resetTimeout has not yet elapsed, Report returns with no change. -/
theorem C10_report_while_open (cb : CircuitBreaker) (success : Bool)
    (now : Int) (h : cb.state = StateOpen) :
    (now - cb.lastOpen < cb.resetTimeout → cb.Report success now = cb)
    ∧ (cb.resetTimeout ≤ now - cb.lastOpen →
        (success = false →
          cb.Report success now =
            { cb with state := StateOpen, lastOpen := now, successes := 0,
                      inFlightTrials := 0 })
        ∧ (success = true → cb.successThresh ≤ 1 →
            cb.Report success now =
              { cb with state := StateClosed, successes := 1,
                        inFlightTrials := 0 })
        ∧ (success = true → 1 < cb.successThresh →
            cb.Report success now =
              { cb with state := StateHalfOpen, successes := 1,
                        inFlightTrials := -1 })) := by
  refine ⟨fun hne => report_open_wait cb success now h hne,
    fun he => ⟨?_, ?_, ?_⟩⟩
  · intro hF
    subst hF
    exact report_open_elapsed_false cb now h he
  · intro hT hs
    subst hT
    exact report_open_elapsed_true_close cb now h he hs
  · intro hT hs
    subst hT
    exact report_open_elapsed_true_stay cb now h he hs

/-- Witness for C10 at a concrete breaker: the elapsed-timeout success with
successThreshold 5 ends HalfOpen with successes 1 and inFlightTrials -1. -/
theorem C10_report_while_open_witness :
    (openExample 5).Report true 10 =
      { (openExample 5) with
        state := StateHalfOpen, successes := 1, inFlightTrials := -1 } :=
  ((C10_report_while_open (openExample 5) true 10 (by decide)).2
    (by decide)).2.2 rfl (by decide)

/-! ## Lemmas and claim theorems for the DynamicBuffer -/

theorem drainLoop_eq {α : Type} (l : List α) (acc q : List α) (c : Nat)
    (h : drainLoop l acc c = some q) : q = acc ++ l := by
  induction l generalizing acc with
  | nil =>
      simp only [drainLoop, Option.some.injEq] at h
      simp [h.symm]
  | cons r rest ih =>
      unfold drainLoop at h
      split at h
      · rw [ih (acc ++ [r]) h]
        simp
      · exact absurd h (by simp)

theorem monitor_characterization {α : Type} (db db2 : DynamicBuffer α)
    (h : db.monitor = some db2) :
    db2.queue = db.queue
    ∧ db2.minSize = db.minSize ∧ db2.maxSize = db.maxSize
    ∧ db2.growPct = db.growPct ∧ db2.shrinkPct = db.shrinkPct
    ∧ (db2.capacity = db.capacity
        ∨ (db.capacity < db.maxSize
            ∧ db2.capacity = min db.maxSize (db.capacity * 2))
        ∨ (db.minSize < db.capacity
            ∧ db2.capacity = max db.minSize (db.capacity / 2))) := by
  by_cases hg : db.growPct < (db.queue.length : Rat) / (db.capacity : Rat)
      ∧ db.capacity < db.maxSize
  · simp only [DynamicBuffer.monitor, if_pos hg] at h
    split at h
    · rw [Option.map_eq_some'] at h
      obtain ⟨q, hdrain, hdb2⟩ := h
      subst hdb2
      exact ⟨by simpa using (drainLoop_eq _ _ _ _ hdrain), rfl, rfl, rfl, rfl,
        Or.inr (Or.inl ⟨hg.2, rfl⟩)⟩
    · cases h
      exact ⟨rfl, rfl, rfl, rfl, rfl, Or.inl rfl⟩
  · by_cases hs : (db.queue.length : Rat) / (db.capacity : Rat) < db.shrinkPct
        ∧ db.minSize < db.capacity
    · simp only [DynamicBuffer.monitor, if_neg hg, if_pos hs] at h
      split at h
      · rw [Option.map_eq_some'] at h
        obtain ⟨q, hdrain, hdb2⟩ := h
        subst hdb2
        exact ⟨by simpa using (drainLoop_eq _ _ _ _ hdrain), rfl, rfl, rfl, rfl,
          Or.inr (Or.inr ⟨hs.2, rfl⟩)⟩
      · cases h
        exact ⟨rfl, rfl, rfl, rfl, rfl, Or.inl rfl⟩
    · simp only [DynamicBuffer.monitor, if_neg hg, if_neg hs] at h
      simp only [ne_eq, not_true_eq_false, if_false, reduceIte] at h
      cases h
      exact ⟨rfl, rfl, rfl, rfl, rfl, Or.inl rfl⟩

/-- Counterexample for C7: NewDynamicBuffer performs no validation, so a
buffer constructed with initial = 0, minSize = 1 starts with capacity 0
below minSize. -/
theorem C7_counterexample :
    ¬ ((NewDynamicBuffer Nat 0 1 10 (8/10) (2/10)).minSize
        ≤ (NewDynamicBuffer Nat 0 1 10 (8/10) (2/10)).capacity) := by
  decide

/-- C7 (amended): provided the constructor arguments satisfy
minSize <= initial <= maxSize, the predicate minSize <= capacity <= maxSize
holds in the initial state, and it is preserved (with minSize and maxSize
themselves unchanged) by every step of the system: enqueue, dequeue, and
resize-monitor steps. -/
theorem C7_capacity_bounds :
    (∀ (α : Type) (initial mi ma : Nat) (g s : Rat),
      mi ≤ initial → initial ≤ ma →
      mi ≤ (NewDynamicBuffer α initial mi ma g s).capacity
      ∧ (NewDynamicBuffer α initial mi ma g s).capacity ≤ ma)
    ∧ (∀ (α : Type) (db db2 : DynamicBuffer α),
      db.minSize ≤ db.capacity → db.capacity ≤ db.maxSize →
      DBStep db db2 →
      db2.minSize = db.minSize ∧ db2.maxSize = db.maxSize
      ∧ db2.minSize ≤ db2.capacity ∧ db2.capacity ≤ db2.maxSize) := by
  constructor
  · intro α initial mi ma g s h1 h2
    exact ⟨h1, h2⟩
  · intro α db db2 hmin hmax step
    rcases step with ⟨r, henq⟩ | ⟨r, hdeq⟩ | hmon
    · by_cases hlt : db.queue.length < db.capacity
      · simp only [DynamicBuffer.Enqueue, if_pos hlt, Option.some.injEq] at henq
        rw [← henq]
        exact ⟨rfl, rfl, hmin, hmax⟩
      · simp [DynamicBuffer.Enqueue, if_neg hlt] at henq
    · unfold DynamicBuffer.Dequeue at hdeq
      split at hdeq
      · exact absurd hdeq (by simp)
      · cases hdeq
        exact ⟨rfl, rfl, hmin, hmax⟩
    · obtain ⟨-, h1, h2, -, -, hcap⟩ := monitor_characterization db db2 hmon
      refine ⟨h1, h2, ?_, ?_⟩ <;>
        rcases hcap with hc | ⟨hlt, hc⟩ | ⟨hlt, hc⟩ <;> omega

/-- Witness for C7: a buffer built with 2 <= 4 <= 16 starts in bounds, and
the concrete grow step from capacity 4 to 8 keeps the bounds and the
configured sizes. -/
theorem C7_capacity_bounds_witness :
    (2 ≤ (NewDynamicBuffer Nat 4 2 16 (8/10) (2/10)).capacity
      ∧ (NewDynamicBuffer Nat 4 2 16 (8/10) (2/10)).capacity ≤ 16)
    ∧ (({ dbGrowExample with capacity := 8 } : DynamicBuffer Nat).minSize
          = dbGrowExample.minSize
      ∧ ({ dbGrowExample with capacity := 8 } : DynamicBuffer Nat).maxSize
          = dbGrowExample.maxSize
      ∧ ({ dbGrowExample with capacity := 8 } : DynamicBuffer Nat).minSize
          ≤ ({ dbGrowExample with capacity := 8 } : DynamicBuffer Nat).capacity
      ∧ ({ dbGrowExample with capacity := 8 } : DynamicBuffer Nat).capacity
          ≤ ({ dbGrowExample with capacity := 8 } : DynamicBuffer Nat).maxSize) :=
  ⟨C7_capacity_bounds.1 Nat 4 2 16 (8/10) (2/10) (by decide) (by decide),
   C7_capacity_bounds.2 Nat dbGrowExample { dbGrowExample with capacity := 8 }
     (by decide) (by decide)
     (DBStep.mon _ _
       (by norm_num [dbGrowExample, DynamicBuffer.monitor, drainLoop]))⟩

/-- C8: for every completed monitor step of the DynamicBuffer (so in
particular for every step that triggers a grow or shrink resize), the queue
afterwards contains exactly the items the old queue held, in their original
order, with no item dropped or duplicated; hence single-producer FIFO
dequeue order is preserved across a resize event. -/
theorem C8_resize_preserves_queue (α : Type) (db db2 : DynamicBuffer α)
    (h : db.monitor = some db2) : db2.queue = db.queue :=
  (monitor_characterization db db2 h).1

/-- Witness for C8: the concrete grow step from capacity 4 to 8 carries the
queue [1, 2, 3, 4] across unchanged. -/
theorem C8_resize_preserves_queue_witness :
    ({ dbGrowExample with capacity := 8 } : DynamicBuffer Nat).queue
      = dbGrowExample.queue :=
  C8_resize_preserves_queue Nat dbGrowExample { dbGrowExample with capacity := 8 }
    (by norm_num [dbGrowExample, DynamicBuffer.monitor, drainLoop])

/-- Counterexample for C9: Enqueue on a full buffer simply blocks (no
result is ever produced in a sequential run); it takes no context or
deadline and has no Timeout or Cancelled error to return. -/
theorem C9_counterexample :
    ({ queue := [1, 2]
       capacity := 2
       minSize := 1
       maxSize := 4
       growPct := 8/10
       shrinkPct := 2/10 } : DynamicBuffer Nat).Enqueue 7 = none := by
  simp [DynamicBuffer.Enqueue]

/-- C9 (amended): DynamicBuffer.Enqueue takes only the item (no context,
no caller-supplied deadline) and returns no error: when the buffer has free
space it appends the item and completes, and when the buffer is full it
blocks until space is available (never returning in a sequential run). -/
theorem C9_enqueue_no_error (α : Type) (db : DynamicBuffer α) (r : α) :
    (db.queue.length < db.capacity →
      db.Enqueue r = some { db with queue := db.queue ++ [r] })
    ∧ (db.capacity ≤ db.queue.length → db.Enqueue r = none) := by
  constructor
  · intro hlt
    unfold DynamicBuffer.Enqueue
    rw [if_pos hlt]
  · intro hge
    unfold DynamicBuffer.Enqueue
    rw [if_neg (not_lt.mpr hge)]

/-- Witness for C9: the concrete full buffer (4 items, capacity 4) blocks
the producer. -/
theorem C9_enqueue_no_error_witness :
    DynamicBuffer.Enqueue dbGrowExample 9 = none :=
  (C9_enqueue_no_error Nat dbGrowExample 9).2 (by decide)

/-- Witness for C4: errorThresh 2, fresh breaker, two failures open it at
time 0 with window sum exactly 2. -/
theorem C4_threshold_witness :
    ((NewCircuitBreaker 2 5 1 10 3).reportFalses 2 0).state = StateOpen
    ∧ ((NewCircuitBreaker 2 5 1 10 3).reportFalses 2 0).lastOpen = 0
    ∧ ((NewCircuitBreaker 2 5 1 10 3).reportFalses 2 0).failures.Sum = 2 :=
  (C4_threshold (NewCircuitBreaker 2 5 1 10 3) 0 2 (by decide) (by decide)
    (by decide) (by decide)).2 (by decide)
